import Mathlib

/- Formal model of the agentic tool-use loop of `how-to-build-agent-python`:
   the agent core (`src/agent.py`), the tool base class (`src/tools/base.py`)
   and the `edit_file` and `bash` tools.  Python strings are modelled as Lean
   `String` (a wrapper around `List Char`); the Python builtins the code uses
   (`str.strip`, `str.lower`, `str.count`, `str.replace`, substring tests
   with `in`) are modelled explicitly below. -/

/-! ### Python string builtins -/

/-- Python `sub in s` (substring containment; the empty string is contained in
    everything). -/
def strContains (s sub : String) : Bool := decide (sub.data <:+: s.data)

/-- Python `s.strip()` with no argument, on the underlying character list:
    remove leading and trailing whitespace. -/
def pyStripList (l : List Char) : List Char :=
  ((l.dropWhile Char.isWhitespace).reverse.dropWhile Char.isWhitespace).reverse

/-- Python `s.strip()` with no argument. -/
def pyStrip (s : String) : String := ⟨pyStripList s.data⟩

/-- Python `str.lower` on one character, on the ASCII range the analysed
    commands and deny-list patterns use (non-ASCII case folding is not
    modelled). -/
def pyLowerChar : Char → Char
  | 'A' => 'a'
  | 'B' => 'b'
  | 'C' => 'c'
  | 'D' => 'd'
  | 'E' => 'e'
  | 'F' => 'f'
  | 'G' => 'g'
  | 'H' => 'h'
  | 'I' => 'i'
  | 'J' => 'j'
  | 'K' => 'k'
  | 'L' => 'l'
  | 'M' => 'm'
  | 'N' => 'n'
  | 'O' => 'o'
  | 'P' => 'p'
  | 'Q' => 'q'
  | 'R' => 'r'
  | 'S' => 's'
  | 'T' => 't'
  | 'U' => 'u'
  | 'V' => 'v'
  | 'W' => 'w'
  | 'X' => 'x'
  | 'Y' => 'y'
  | 'Z' => 'z'
  | c => c

/-- Python `s.lower()`. -/
def pyLower (s : String) : String := ⟨s.data.map pyLowerChar⟩

/-- Python `s.split(sep)` (for a non-empty separator), on character lists:
    scan left to right, cutting at each non-overlapping occurrence of `old`.
    The `old ≠ []` guard keeps the scan well defined on the degenerate empty
    separator (Python raises there). -/
def pySplitList (old : List Char) : List Char → List (List Char)
  | [] => [[]]
  | c :: rest =>
    if h : old ≠ [] ∧ old <+: c :: rest then
      [] :: pySplitList old ((c :: rest).drop old.length)
    else
      match pySplitList old rest with
      | [] => [[c]]
      | p :: ps => (c :: p) :: ps
termination_by l => l.length
decreasing_by
  · simp only [List.length_drop, List.length_cons]
    have hpos : 0 < old.length := List.length_pos.mpr h.1
    omega
  · simp

/-- The scan behind Python `s.count(sub)` for a non-empty `sub`:
    non-overlapping occurrences, counted left to right. -/
def pyCountList (old : List Char) : List Char → Nat
  | [] => 0
  | c :: rest =>
    if h : old ≠ [] ∧ old <+: c :: rest then
      1 + pyCountList old ((c :: rest).drop old.length)
    else
      pyCountList old rest
termination_by l => l.length
decreasing_by
  · simp only [List.length_drop, List.length_cons]
    have hpos : 0 < old.length := List.length_pos.mpr h.1
    omega
  · simp

/-- The scan behind Python `s.replace(old, new)` for a non-empty `old`:
    every non-overlapping occurrence, left to right, is replaced. -/
def pyReplaceList (old new : List Char) : List Char → List Char
  | [] => []
  | c :: rest =>
    if h : old ≠ [] ∧ old <+: c :: rest then
      new ++ pyReplaceList old new ((c :: rest).drop old.length)
    else
      c :: pyReplaceList old new rest
termination_by l => l.length
decreasing_by
  · simp only [List.length_drop, List.length_cons]
    have hpos : 0 < old.length := List.length_pos.mpr h.1
    omega
  · simp

/-- Python `s.count(sub)`.  An empty pattern occurs `len(s) + 1` times; in
    particular `"".count("") = 1`. -/
def pyCount (s sub : String) : Nat :=
  if sub.data = [] then s.data.length + 1 else pyCountList sub.data s.data

/-- Python `s.replace(old, new)`.  An empty `old` inserts `new` before every
    character and once at the start; in particular `"".replace("", n) = n`. -/
def pyReplace (s old new : String) : String :=
  if old.data = [] then ⟨new.data ++ (s.data.map (fun c => c :: new.data)).flatten⟩
  else ⟨pyReplaceList old.data new.data s.data⟩

/-- Joining a list of segments with a separator (the inverse of the split
    scan); used to state the replace-all characterisation. -/
def joinWith {α : Type} (sep : List α) : List (List α) → List α
  | [] => []
  | [s] => s
  | s :: rest => s ++ sep ++ joinWith sep rest

/-- Splitting a character list at every character satisfying `p` (used for
    Python `str.split` and for path components). -/
def splitWhen (p : Char → Bool) : List Char → List (List Char)
  | [] => [[]]
  | x :: xs =>
    if p x then [] :: splitWhen p xs
    else
      match splitWhen p xs with
      | [] => [[x]]
      | q :: qs => (x :: q) :: qs

/-- Python `s.split()` with no argument: split on whitespace runs, discarding
    empty words. -/
def pyWords (s : String) : List String :=
  ((splitWhen Char.isWhitespace s.data).filter (fun w => !w.isEmpty)).map String.mk

/-- Components of `pathlib.Path(p)`, for the plain `/`-separated paths the
    tools receive (no normalisation of `..` or duplicated separators). -/
def pathComponents (p : String) : List String :=
  (splitWhen (fun c => c == '/') p.data).map String.mk

/-- The directory paths `Path(p).parent.mkdir(parents=True, exist_ok=True)`
    creates (or requires to be directories): every proper prefix of the
    component path of `p`. -/
def ancestorDirs (p : String) : List String :=
  let comps := (pathComponents p).dropLast
  (List.range comps.length).map (fun i => String.intercalate "/" (comps.take (i + 1)))

/-! ### The agent core (`src/agent.py`) -/

/-- Keyword arguments of one tool invocation (`tool_use.input`); the workshop
    tools all take string-valued fields. -/
abbrev ToolInput := List (String × String)

/-- Observable side effects of a handler body; the executor-level claims state
    that a blocked or invalid call produces none. -/
inductive Effect
  | handlerRun (name : String)
  | spawn (command : String)
deriving DecidableEq

/-- One registry entry: the data `Agent.add_tool` stores and `_call_claude`
    advertises, together with the two phases of `BaseTool.__call__`
    (`src/tools/base.py`): pydantic validation of the raw keyword arguments,
    then the `execute` body.  Either phase may raise; a raised exception is an
    `Except.error` carrying its message.  The `execute` phase also records the
    side effects it performs. -/
structure RegTool where
  name : String
  description : String
  schema : String
  validate : ToolInput → Except String ToolInput
  execute : ToolInput → Except String String × List Effect

/-- `self.tools`: a Python `dict`, modelled in insertion order. -/
abbrev Registry := List RegTool

/-- Dictionary lookup `self.tools[name]`; `name in self.tools` is `isSome`. -/
def findTool (tools : Registry) (name : String) : Option RegTool :=
  tools.find? (fun t => t.name == name)

/-- `Agent.add_tool`: `self.tools[tool.name] = tool`.  A Python dict keeps the
    first-insertion position of an existing key and replaces its value; a new
    key is appended at the end. -/
def addTool (tools : Registry) (t : RegTool) : Registry :=
  if tools.any (fun u => u.name == t.name) then
    tools.map (fun u => if u.name == t.name then t else u)
  else
    tools ++ [t]

/-- One element of the `anthropic_tools` list `_call_claude` rebuilds from
    `self.tools.values()` on every remote call. -/
structure ToolParam where
  name : String
  description : String
  input_schema : String
deriving DecidableEq

/-- The tool list advertised to the remote model by `_call_claude`. -/
def toolParams (tools : Registry) : List ToolParam :=
  tools.map (fun t => ⟨t.name, t.description, t.schema⟩)

/-- `BaseTool.__call__`: validate the raw keyword arguments with the pydantic
    input model, then run `execute` on the validated input.  A validation
    error propagates as a raised exception and the `execute` body never runs,
    so no side effects are recorded. -/
def callTool (t : RegTool) (input : ToolInput) : Except String String × List Effect :=
  match t.validate input with
  | .error e => (.error e, [])
  | .ok v => t.execute v

/-- `Agent._execute_tool`: an unknown name and any raised exception are
    converted to error strings; the function itself always returns. -/
def executeTool (tools : Registry) (name : String) (input : ToolInput) :
    String × List Effect :=
  match findTool tools name with
  | none => ("Tool '" ++ name ++ "' not found", [])
  | some t =>
    match callTool t input with
    | (.ok result, effs) => (result, effs)
    | (.error e, effs) => ("Error executing tool " ++ name ++ ": " ++ e, effs)

/-- One content block of a model reply (`message.content`). -/
inductive Block
  | text (s : String)
  | toolUse (id name : String) (input : ToolInput)
deriving DecidableEq

/-- One model reply. -/
structure Reply where
  content : List Block
deriving DecidableEq

/-- A `tool_result` content block (`anthropic.ContentBlockParam` with
    `type="tool_result"`; the source sets no other field). -/
structure ToolResult where
  tool_use_id : String
  content : String
deriving DecidableEq

/-- One entry of `self.conversation`.  A plain user message holds the typed
    text; an assistant entry holds the reply blocks appended via
    `message.to_param()`; a tool-results entry is the message built from
    `tool_results`. -/
inductive Message
  | user (text : String)
  | assistant (blocks : List Block)
  | toolResults (results : List ToolResult)
deriving DecidableEq

/-- The `role` field each conversation entry carries in `src/agent.py`; the
    tool-results message is created with `role="user"`. -/
def Message.role : Message → String
  | .user _ => "user"
  | .assistant _ => "assistant"
  | .toolResults _ => "user"

/-- The behaviour of the remote model over one session: the reply returned by
    each successive `_call_claude`, with `none` standing for a raised
    transport error. -/
abbrev ModelScript := List (Option Reply)

/-- The `tool_use` blocks of a reply, in order: `(id, name, input)`. -/
def toolUses (blocks : List Block) : List (String × String × ToolInput) :=
  blocks.filterMap fun b => match b with
    | .text _ => none
    | .toolUse id name input => some (id, name, input)

/-- The `has_tool_use` flag computed by the block scan in
    `_process_conversation`. -/
def hasToolUse (r : Reply) : Bool :=
  r.content.any fun b => match b with
    | .toolUse _ _ _ => true
    | .text _ => false

/-- The `tool_results` list built by the `for content in message.content`
    scan: one `tool_result` per `tool_use` block, in reply order, carrying the
    originating block's `id` and the string `_execute_tool` returned. -/
def dispatchReply (tools : Registry) (r : Reply) : List ToolResult :=
  r.content.filterMap fun b => match b with
    | .text _ => none
    | .toolUse id name input => some ⟨id, (executeTool tools name input).1⟩

/-- What one `_process_conversation` turn leaves behind: the conversation, the
    part of the model script not yet consumed, the number of `_call_claude`
    calls attempted, and whether the turn ended through an `except` path. -/
structure TurnResult where
  conv : List Message
  restScript : ModelScript
  calls : Nat
  errored : Bool
deriving DecidableEq

/-- The `while True` loop of `_process_conversation`, entered holding the
    latest reply (already appended to the conversation).  The `none` result
    models the state in which the source would loop forever (`has_tool_use`
    set but `tool_results` empty); `processLoop_ne_none` below proves it
    unreachable. -/
def processLoop (tools : Registry) :
    ModelScript → List Message → Reply → Nat → Option TurnResult
  | script, conv, reply, calls =>
    let results := dispatchReply tools reply
    if hasToolUse reply = false then
      some ⟨conv, script, calls, false⟩
    else if results.isEmpty then
      none
    else
      let conv2 := conv ++ [Message.toolResults results]
      match script with
      | some r :: rest =>
        processLoop tools rest (conv2 ++ [Message.assistant r.content]) r (calls + 1)
      | none :: rest => some ⟨conv2, rest, calls + 1, true⟩
      | [] => some ⟨conv2, [], calls + 1, true⟩
termination_by script _ _ _ => script.length
decreasing_by simp

/-- `Agent._process_conversation`.  The first `_call_claude` happens inside
    the initial `try`; a transport failure there returns with the conversation
    untouched. -/
def processConversation (tools : Registry) (script : ModelScript)
    (conv : List Message) : Option TurnResult :=
  match script with
  | some r :: rest => processLoop tools rest (conv ++ [Message.assistant r.content]) r 1
  | none :: rest => some ⟨conv, rest, 1, true⟩
  | [] => some ⟨conv, [], 1, true⟩

/-- `Agent.run`: the session loop over a list of user inputs.  Empty or
    whitespace-only input is skipped without contacting the model; any other
    input is appended as a user message and drives one
    `_process_conversation` turn. -/
def runSession (tools : Registry) :
    List String → ModelScript → List Message → List Message
  | [], _, conv => conv
  | input :: restInputs, script, conv =>
    if pyStrip input = "" then runSession tools restInputs script conv
    else
      match processConversation tools script (conv ++ [Message.user input]) with
      | some res => runSession tools restInputs res.restScript res.conv
      | none => conv

/-! ### The `edit_file` tool (`src/tools/edit_file.py`) -/

/-- The pydantic validation of `EditFileInput`: three required string fields
    and the `model_validator` requiring `old_str != new_str`.  The error
    strings stand in for pydantic's reports; only the validator's own message
    is literal in the source. -/
def editFileValidate (input : ToolInput) : Except String ToolInput :=
  match input.lookup "path", input.lookup "old_str", input.lookup "new_str" with
  | some _, some o, some n =>
    if o == n then .error "old_str and new_str must be different"
    else .ok input
  | _, _, _ => .error "Field required"

/-- The slice of the file system `edit_file` touches: file contents by path,
    plus the set of directory paths that exist. -/
structure EditFS where
  files : List (String × String)
  dirs : List String
deriving DecidableEq

/-- `file_path.write_text(content)`: set the content stored under `path`. -/
def setFile (files : List (String × String)) (path content : String) :
    List (String × String) :=
  (path, content) :: files.filter (fun e => e.1 != path)

/-- The replacement phase of `EditFileTool.execute`, after
    `original_content` was read (or defaulted to the empty string);
    `fileExisted` is the value the second `file_path.exists()` check sees
    (nothing has changed it since the first check). -/
def editFileReplace (fs : EditFS) (path old_str new_str original_content : String)
    (fileExisted : Bool) : String × EditFS :=
  if strContains original_content old_str then
    let occurrence_count := pyCount original_content old_str
    let new_content := pyReplace original_content old_str new_str
    ("Successfully edited " ++ path ++ ". Replaced " ++ toString occurrence_count ++
        " occurrence(s) of the specified string.",
      { fs with files := setFile fs.files path new_content })
  else
    if !fileExisted && old_str == "" then
      ("Created new file: " ++ path, { fs with files := setFile fs.files path new_str })
    else
      ("String not found in file: '" ++ old_str ++ "'", fs)

/-- `EditFileTool.execute`, modelled against an `EditFS` state; returns the
    result string and the new state.  `mkdir(parents=True, exist_ok=True)`
    with an existing *file* among the required directories raises
    `FileExistsError`, which the final `except Exception` clause converts to
    the generic error string (the text after the colon abbreviates Python's
    exception text); otherwise it creates every missing ancestor directory
    before any content is examined. -/
def editFileExecute (fs : EditFS) (path old_str new_str : String) :
    String × EditFS :=
  if (ancestorDirs path).any (fun d => (fs.files.lookup d).isSome) then
    ("Unexpected error editing file " ++ path ++ ": mkdir failed", fs)
  else
    let fs1 : EditFS :=
      { fs with dirs := fs.dirs ++ (ancestorDirs path).filter (fun d => !fs.dirs.contains d) }
    let isFile := (fs1.files.lookup path).isSome
    let isDir := fs1.dirs.contains path
    if isFile || isDir then
      if !isFile then
        ("Path exists but is not a file: " ++ path, fs1)
      else
        editFileReplace fs1 path old_str new_str ((fs1.files.lookup path).getD "") true
    else
      editFileReplace fs1 path old_str new_str "" false

/-- The `edit_file` tool as a registry entry over a fixed file-system state.
    Its body records a `handlerRun` effect, so that a run of the handler is
    observable; the fallback arm is unreachable because `editFileValidate`
    guarantees the three fields are present. -/
def editFileRegTool (fs : EditFS) : RegTool :=
  { name := "edit_file"
    description := "Make edits to a text file. Replaces 'old_str' with 'new_str' in the given file. 'old_str' and 'new_str' MUST be different from each other. If the file specified with path doesn't exist, it will be created."
    schema := "EditFileInput"
    validate := editFileValidate
    execute := fun v =>
      match v.lookup "path", v.lookup "old_str", v.lookup "new_str" with
      | some p, some o, some n =>
        (.ok (editFileExecute fs p o n).1, [Effect.handlerRun "edit_file"])
      | _, _, _ => (.error "missing field", []) }

/-! ### The `bash` tool (`src/tools/bash.py`) -/

/-- `SafeBashTool.SAFE_COMMANDS` (a Python set, listed in source order;
    only membership is ever used). -/
def SAFE_COMMANDS : List String :=
  ["ls", "cat", "grep", "find", "head", "tail", "wc", "du", "df",
   "ps", "pwd", "whoami", "date", "echo", "which", "type", "sort",
   "uniq", "cut", "awk", "sed", "tr", "basename", "dirname", "file",
   "stat", "realpath", "readlink", "uname", "uptime", "env", "printenv"]

/-- `SafeBashTool.DANGEROUS_PATTERNS` (a Python set, listed in source order;
    the set's unspecified iteration order only affects which pattern a blocked
    command is reported for, never whether it is blocked). -/
def DANGEROUS_PATTERNS : List String :=
  ["rm", "mv", "cp", "mkdir", "rmdir", "touch", "chmod", "chown",
   "sudo", "su", "passwd", "useradd", "userdel", "mount", "umount",
   "kill", "killall", "pkill", "wget", "curl", "ssh", "scp", "rsync",
   "git", "pip", "npm", "make", "gcc", "python", "node", "ruby",
   ">", ">>", "tee", "dd", "fdisk", "parted", "mkfs", "fsck"]

/-- `SafeBashTool._validate_command_safety`: `some msg` is a rejection,
    `none` means the command passed the checks. -/
def validateCommandSafety (command : String) : Option String :=
  let command_lower := pyLower command
  match DANGEROUS_PATTERNS.find? (fun pattern => strContains command_lower pattern) with
  | some pattern =>
    some ("Error: Command contains dangerous pattern '" ++ pattern ++
      "' and is blocked for security")
  | none =>
    let first_command := (pyWords command_lower).headD ""
    if first_command.data.take 2 = ['.', '/'] || first_command.data.take 1 = ['/'] then
      some "Error: Absolute paths and executable files are not allowed"
    else
      let base_command :=
        ((splitWhen (fun c => c == '/') first_command.data).map String.mk).getLastD ""
      if base_command != "" && !SAFE_COMMANDS.contains base_command then
        some ("Error: Command '" ++ base_command ++
          "' is not in the whitelist of safe commands")
      else
        none

/-- The observable result of `subprocess.run(["bash", "-c", command], ...)`:
    completion with captured output and exit code, a timeout, a missing bash
    binary, or any other raised exception. -/
inductive SpawnOutcome
  | completed (stdout stderr : String) (returncode : Int)
  | timeout
  | bashMissing
  | raised (msg : String)

/-- `SafeBashTool.execute`, parameterised by the behaviour `runner` of the
    external subprocess; the effect list of the result records whether the
    subprocess was spawned at all. -/
def bashExecute (runner : String → SpawnOutcome) (input_command : String) :
    String × List Effect :=
  let command := pyStrip input_command
  if command == "" then ("Error: Empty command provided", [])
  else
    match validateCommandSafety command with
    | some security_error => (security_error, [])
    | none =>
      match runner command with
      | .completed stdout stderr returncode =>
        let output_parts :=
          (if stdout != "" then ["STDOUT:\n" ++ stdout] else []) ++
          (if stderr != "" then ["STDERR:\n" ++ stderr] else [])
        let output_parts := if output_parts.isEmpty then ["(No output)"] else output_parts
        let output := String.intercalate "\n" output_parts
        let output :=
          if returncode != 0 then output ++ "\n\nExit code: " ++ toString returncode
          else output
        (output, [Effect.spawn command])
      | .timeout =>
        ("Command timed out after 15 seconds: " ++ command, [Effect.spawn command])
      | .bashMissing =>
        ("Bash not found. This tool requires bash to be installed.", [Effect.spawn command])
      | .raised e =>
        ("Unexpected error executing command '" ++ command ++ "': " ++ e,
          [Effect.spawn command])

/-! ### Helper lemmas about the dispatch scan -/

theorem dispatchReply_toolUses (tools : Registry) (r : Reply) :
    dispatchReply tools r =
      (toolUses r.content).map
        (fun x => ⟨x.1, (executeTool tools x.2.1 x.2.2).1⟩) := by
  unfold dispatchReply toolUses
  generalize r.content = l
  induction l with
  | nil => rfl
  | cons b bs ih => cases b <;> simp [ih]

theorem hasToolUse_isEmpty (r : Reply) :
    hasToolUse r = !(toolUses r.content).isEmpty := by
  unfold hasToolUse toolUses
  generalize r.content = l
  induction l with
  | nil => rfl
  | cons b bs ih => cases b <;> simp [ih]

theorem dispatchReply_isEmpty_false (tools : Registry) (r : Reply)
    (htu : hasToolUse r = true) : (dispatchReply tools r).isEmpty = false := by
  rw [hasToolUse_isEmpty] at htu
  rw [dispatchReply_toolUses]
  cases h : toolUses r.content with
  | nil => rw [h] at htu; simp at htu
  | cons x xs => simp

/-! ### C1 -/

/-- C1: a model reply whose content blocks contain no `tool_use` block makes
    `_process_conversation` perform exactly one remote call (one script entry
    consumed, `calls = 1`), terminate without error, and append only the
    assistant message — no tool-result message. -/
theorem turn_without_requests_single_call (tools : Registry) (conv : List Message)
    (r : Reply) (rest : ModelScript) (h : hasToolUse r = false) :
    processConversation tools (some r :: rest) conv =
      some ⟨conv ++ [Message.assistant r.content], rest, 1, false⟩ := by
  rw [processConversation, processLoop]
  simp [h]

theorem turn_without_requests_single_call_witness :
    hasToolUse ⟨[Block.text "hi"]⟩ = false ∧
    processConversation [] [some ⟨[Block.text "hi"]⟩] [] =
      some ⟨[Message.assistant [Block.text "hi"]], [], 1, false⟩ :=
  ⟨by decide, turn_without_requests_single_call [] [] ⟨[Block.text "hi"]⟩ [] (by decide)⟩

/-! ### C2 -/

/-- C2: a reply with at least one `tool_use` block produces exactly one
    `tool_result` per request — as many results as `tool_use` blocks, with the
    `tool_use_id` of each result equal to the id of the corresponding request,
    in reply order — and they are all appended as one single user-role message
    before the next remote call is made. -/
theorem requests_produce_matching_results (tools : Registry) (conv : List Message)
    (r r2 : Reply) (rest : ModelScript) (calls : Nat)
    (htu : hasToolUse r = true) :
    (dispatchReply tools r).length = (toolUses r.content).length ∧
    (dispatchReply tools r).map ToolResult.tool_use_id =
      (toolUses r.content).map (fun x => x.1) ∧
    (Message.toolResults (dispatchReply tools r)).role = "user" ∧
    processLoop tools (some r2 :: rest) conv r calls =
      processLoop tools rest
        (conv ++ [Message.toolResults (dispatchReply tools r),
          Message.assistant r2.content]) r2 (calls + 1) := by
  refine ⟨?_, ?_, rfl, ?_⟩
  · rw [dispatchReply_toolUses, List.length_map]
  · rw [dispatchReply_toolUses, List.map_map]
    rfl
  · have hne := dispatchReply_isEmpty_false tools r htu
    conv_lhs => rw [processLoop]
    simp [htu, hne]

theorem requests_produce_matching_results_witness :
    hasToolUse ⟨[Block.toolUse "id1" "nope" []]⟩ = true ∧
    ((dispatchReply [] ⟨[Block.toolUse "id1" "nope" []]⟩).length =
        (toolUses [Block.toolUse "id1" "nope" []]).length ∧
      (dispatchReply [] ⟨[Block.toolUse "id1" "nope" []]⟩).map ToolResult.tool_use_id =
        (toolUses [Block.toolUse "id1" "nope" []]).map (fun x => x.1) ∧
      (Message.toolResults (dispatchReply [] ⟨[Block.toolUse "id1" "nope" []]⟩)).role =
        "user" ∧
      processLoop [] [some ⟨[]⟩] [] ⟨[Block.toolUse "id1" "nope" []]⟩ 1 =
        processLoop [] []
          ([] ++ [Message.toolResults (dispatchReply [] ⟨[Block.toolUse "id1" "nope" []]⟩),
            Message.assistant (⟨[]⟩ : Reply).content]) ⟨[]⟩ (1 + 1)) :=
  ⟨by decide, requests_produce_matching_results [] [] ⟨[Block.toolUse "id1" "nope" []]⟩
    ⟨[]⟩ [] 1 (by decide)⟩

/-! ### C3 -/

/-- C3: a raised transport error ends the turn with the conversation exactly
    as it stood immediately before the failed call — untouched on a
    first-call failure, and equal to the state holding the already-appended
    tool-results message on a mid-turn failure — and control returns to the
    session loop, which goes on processing the remaining inputs. -/
theorem transport_failure_preserves_transcript (tools : Registry)
    (conv : List Message) (input : String) (restInputs : List String)
    (r : Reply) (rest : ModelScript) (calls : Nat)
    (hin : pyStrip input ≠ "") (htu : hasToolUse r = true) :
    processConversation tools (none :: rest) conv = some ⟨conv, rest, 1, true⟩ ∧
    processLoop tools (none :: rest) conv r calls =
      some ⟨conv ++ [Message.toolResults (dispatchReply tools r)], rest,
        calls + 1, true⟩ ∧
    runSession tools (input :: restInputs) (none :: rest) conv =
      runSession tools restInputs rest (conv ++ [Message.user input]) := by
  have hne := dispatchReply_isEmpty_false tools r htu
  refine ⟨rfl, ?_, ?_⟩
  · rw [processLoop]
    simp [htu, hne]
  · rw [runSession]
    simp [hin, processConversation]

theorem transport_failure_preserves_transcript_witness :
    pyStrip "hello" ≠ "" ∧ hasToolUse ⟨[Block.toolUse "i1" "bash" []]⟩ = true ∧
    (processConversation [] [none] [Message.user "hello"] =
        some ⟨[Message.user "hello"], [], 1, true⟩ ∧
      processLoop [] [none] [Message.user "hello"] ⟨[Block.toolUse "i1" "bash" []]⟩ 1 =
        some ⟨[Message.user "hello"] ++
          [Message.toolResults (dispatchReply [] ⟨[Block.toolUse "i1" "bash" []]⟩)],
          [], 1 + 1, true⟩ ∧
      runSession [] ["hello"] [none] [] =
        runSession [] [] [] ([] ++ [Message.user "hello"])) :=
  ⟨by decide, by decide,
    by
      have h := transport_failure_preserves_transcript [] [Message.user "hello"] "hello"
        [] ⟨[Block.toolUse "i1" "bash" []]⟩ [] 1 (by decide) (by decide)
      exact ⟨h.1, h.2.1, (transport_failure_preserves_transcript [] [] "hello" []
        ⟨[Block.toolUse "i1" "bash" []]⟩ [] 1 (by decide) (by decide)).2.2⟩⟩

/-! ### C4 -/

/-- C4 (counterexample): at the unregistered name `read_file` the executor
    returns the text `Tool 'read_file' not found`, which is not the text
    `capability 'read_file' not found` the claim states. -/
theorem unknown_tool_text_counterexample :
    (executeTool [] "read_file" []).1 = "Tool 'read_file' not found" ∧
    (executeTool [] "read_file" []).1 ≠ "capability 'read_file' not found" := by
  exact ⟨rfl, by decide⟩

/-- C4 (amended): for every capability name that is not registered, invoking
    the executor returns the outcome string `Tool '<name>' not found` with no
    side effects (outcomes are plain strings in this code; there is no
    structured `is_error` flag); the executor never raises, and the dispatch
    loop carries the result into a single tool-results message and continues
    with the next remote call. -/
theorem unknown_tool_not_found (tools : Registry) (name : String)
    (input : ToolInput) (id : String) (r2 : Reply) (rest : ModelScript)
    (conv : List Message) (calls : Nat)
    (h : findTool tools name = none) :
    executeTool tools name input = ("Tool '" ++ name ++ "' not found", []) ∧
    processLoop tools (some r2 :: rest) conv ⟨[Block.toolUse id name input]⟩ calls =
      processLoop tools rest
        (conv ++ [Message.toolResults [⟨id, "Tool '" ++ name ++ "' not found"⟩],
          Message.assistant r2.content]) r2 (calls + 1) := by
  have hexec : executeTool tools name input = ("Tool '" ++ name ++ "' not found", []) := by
    rw [executeTool, h]
  refine ⟨hexec, ?_⟩
  conv_lhs => rw [processLoop]
  simp [hasToolUse, dispatchReply, hexec]

theorem unknown_tool_not_found_witness :
    findTool [] "read_file" = none ∧
    (executeTool [] "read_file" [("path", "x.txt")] =
        ("Tool '" ++ "read_file" ++ "' not found", []) ∧
      processLoop [] [some ⟨[]⟩] [] ⟨[Block.toolUse "a1" "read_file" [("path", "x.txt")]]⟩ 1 =
        processLoop [] []
          ([] ++ [Message.toolResults
            [⟨"a1", "Tool '" ++ "read_file" ++ "' not found"⟩],
            Message.assistant (⟨[]⟩ : Reply).content]) ⟨[]⟩ (1 + 1)) :=
  ⟨rfl, unknown_tool_not_found [] "read_file" [("path", "x.txt")] "a1" ⟨[]⟩ [] [] 1 rfl⟩

/-! ### C5 -/

/-- C5: a registered capability invoked with arguments its pydantic input
    model rejects (missing required field, wrong shape, or the domain
    constraint `old_str != new_str` of `edit_file`) yields the error outcome
    carrying the validation message, and the handler's `execute` body is never
    run: the recorded side-effect trace is empty. -/
theorem validation_failure_skips_handler (tools : Registry) (name : String)
    (t : RegTool) (input : ToolInput) (e : String)
    (hfind : findTool tools name = some t)
    (hval : t.validate input = .error e) :
    executeTool tools name input =
      ("Error executing tool " ++ name ++ ": " ++ e, []) := by
  simp [executeTool, hfind, callTool, hval]

theorem validation_failure_skips_handler_witness :
    findTool [editFileRegTool ⟨[], []⟩] "edit_file" = some (editFileRegTool ⟨[], []⟩) ∧
    (editFileRegTool ⟨[], []⟩).validate
        [("path", "a.txt"), ("old_str", "x"), ("new_str", "x")] =
      .error "old_str and new_str must be different" ∧
    executeTool [editFileRegTool ⟨[], []⟩] "edit_file"
        [("path", "a.txt"), ("old_str", "x"), ("new_str", "x")] =
      ("Error executing tool " ++ "edit_file" ++ ": " ++
        "old_str and new_str must be different", []) :=
  ⟨rfl, rfl, validation_failure_skips_handler [editFileRegTool ⟨[], []⟩] "edit_file"
    (editFileRegTool ⟨[], []⟩) [("path", "a.txt"), ("old_str", "x"), ("new_str", "x")]
    "old_str and new_str must be different" rfl rfl⟩

/-! ### C7 -/

theorem findTool_overwrite (tools : Registry) (t : RegTool)
    (h : ∃ u ∈ tools, u.name = t.name) :
    findTool (tools.map (fun u => if u.name == t.name then t else u)) t.name =
      some t := by
  induction tools with
  | nil => simp at h
  | cons v vs ih =>
    by_cases hv : v.name = t.name
    · simp [findTool, List.find?_cons, hv]
    · have hbeq : (v.name == t.name) = false := beq_eq_false_iff_ne.mpr hv
      simp only [List.map_cons, hbeq, if_neg, Bool.false_eq_true, ite_false]
      rw [findTool, List.find?_cons, hbeq]
      apply ih
      obtain ⟨u, hu, hun⟩ := h
      rcases List.mem_cons.mp hu with rfl | hmem
      · exact absurd hun hv
      · exact ⟨u, hmem, hun⟩

theorem names_overwrite (tools : Registry) (t : RegTool) :
    (tools.map (fun u => if u.name == t.name then t else u)).map RegTool.name =
      tools.map RegTool.name := by
  rw [List.map_map]
  apply List.map_congr_left
  intro u _
  by_cases hu : u.name = t.name
  · simp only [Function.comp_apply, beq_iff_eq.mpr hu, if_true]
    exact hu.symm
  · simp only [Function.comp_apply, beq_eq_false_iff_ne.mpr hu, Bool.false_eq_true,
      if_false]

/-- C7: registering a capability under an already-registered name overwrites
    the existing entry in place — the stored tool under that name becomes the
    new one, no other entry keeps that name, no entry is added and no error is
    raised (the operation is total) — and the descriptor list advertised to
    the remote model on each call enumerates the registered names in
    registration order, unchanged by the overwrite. -/
theorem register_overwrites_last_wins (tools : Registry) (t : RegTool)
    (hmem : t.name ∈ tools.map RegTool.name) :
    (addTool tools t).map RegTool.name = tools.map RegTool.name ∧
    findTool (addTool tools t) t.name = some t ∧
    (∀ u ∈ addTool tools t, u.name = t.name → u = t) ∧
    (toolParams (addTool tools t)).map ToolParam.name = tools.map RegTool.name := by
  obtain ⟨u, hu, hun⟩ := List.mem_map.mp hmem
  have hany : tools.any (fun v => v.name == t.name) = true :=
    List.any_eq_true.mpr ⟨u, hu, beq_iff_eq.mpr hun⟩
  have haddTool : addTool tools t =
      tools.map (fun v => if v.name == t.name then t else v) := by
    rw [addTool, if_pos hany]
  refine ⟨?_, ?_, ?_, ?_⟩
  · rw [haddTool]; exact names_overwrite tools t
  · rw [haddTool]; exact findTool_overwrite tools t ⟨u, hu, hun⟩
  · intro v hv hvname
    rw [haddTool] at hv
    obtain ⟨w, _, hw⟩ := List.mem_map.mp hv
    by_cases hwb : w.name = t.name
    · rw [← hw]; simp [beq_iff_eq.mpr hwb]
    · rw [← hw] at hvname ⊢
      simp only [beq_eq_false_iff_ne.mpr hwb, Bool.false_eq_true, if_false] at hvname ⊢
      exact absurd hvname hwb
  · rw [toolParams, List.map_map, haddTool, List.map_map]
    have h2 := names_overwrite tools t
    rw [List.map_map] at h2
    exact h2

theorem register_overwrites_last_wins_witness :
    ("probe" : String) ∈
      [RegTool.mk "probe" "first" "S" Except.ok (fun _ => (Except.ok "one", []))].map
        RegTool.name ∧
    (addTool [RegTool.mk "probe" "first" "S" Except.ok (fun _ => (Except.ok "one", []))]
        (RegTool.mk "probe" "second" "S" Except.ok (fun _ => (Except.ok "two", [])))).map
        RegTool.name =
      [RegTool.mk "probe" "first" "S" Except.ok (fun _ => (Except.ok "one", []))].map
        RegTool.name :=
  ⟨by simp,
    (register_overwrites_last_wins
      [RegTool.mk "probe" "first" "S" Except.ok (fun _ => (Except.ok "one", []))]
      (RegTool.mk "probe" "second" "S" Except.ok (fun _ => (Except.ok "two", [])))
      (by simp)).1⟩

/-! ### C6 -/

theorem wsPyLowerChar (c : Char) :
    (pyLowerChar c).isWhitespace = c.isWhitespace := by
  unfold pyLowerChar
  split <;> rfl

theorem pyStripList_map_lower (l : List Char) :
    pyStripList (l.map pyLowerChar) = (pyStripList l).map pyLowerChar := by
  have hfun : Char.isWhitespace ∘ pyLowerChar = Char.isWhitespace :=
    funext wsPyLowerChar
  unfold pyStripList
  rw [List.dropWhile_map, hfun, ← List.map_reverse, List.dropWhile_map, hfun,
    ← List.map_reverse]

theorem pat_survives_dropWhile {p l : List Char} (hne : p ≠ [])
    (hws : ∀ c ∈ p, c.isWhitespace = false) (h : p <:+: l) :
    p <:+: l.dropWhile Char.isWhitespace := by
  induction l with
  | nil =>
    obtain ⟨s, t, hst⟩ := h
    simp only [List.append_eq_nil] at hst
    exact absurd hst.1.2 hne
  | cons x xs ih =>
    rw [List.dropWhile_cons]
    by_cases hx : x.isWhitespace = true
    · rw [if_pos hx]
      apply ih
      obtain ⟨s, t, hst⟩ := h
      cases s with
      | nil =>
        cases p with
        | nil => exact absurd rfl hne
        | cons y p2 =>
          simp only [List.nil_append, List.cons_append, List.cons.injEq] at hst
          have hyws := hws y (List.mem_cons_self y p2)
          rw [hst.1] at hyws
          rw [hyws] at hx
          exact absurd hx (by simp)
      | cons a s2 =>
        simp only [List.cons_append, List.cons.injEq] at hst
        exact ⟨s2, t, hst.2⟩
    · rw [if_neg hx]
      exact h

theorem revKeepsPat {p l : List Char} (h : p <:+: l) : p.reverse <:+: l.reverse := by
  obtain ⟨s, t, rfl⟩ := h
  exact ⟨t.reverse, s.reverse, by simp⟩

theorem pat_survives_pyStripList {p l : List Char} (hne : p ≠ [])
    (hws : ∀ c ∈ p, c.isWhitespace = false) (h : p <:+: l) :
    p <:+: pyStripList l := by
  have h1 := pat_survives_dropWhile hne hws h
  have h2 := revKeepsPat h1
  have hne2 : p.reverse ≠ [] := by simpa using hne
  have hws2 : ∀ c ∈ p.reverse, c.isWhitespace = false := by
    intro c hc
    exact hws c (List.mem_reverse.mp hc)
  have h3 := pat_survives_dropWhile hne2 hws2 h2
  have h4 := revKeepsPat h3
  unfold pyStripList
  simpa using h4

theorem dangerous_patterns_wf :
    ∀ p ∈ DANGEROUS_PATTERNS, p.data ≠ [] ∧ ∀ c ∈ p.data, c.isWhitespace = false := by
  decide

/-- C6: a command whose lowercased text contains any deny-listed dangerous
    pattern is rejected by the safety validation — `SafeBashTool.execute`
    returns one of the blocked-pattern error messages and records no `spawn`
    effect: the subprocess is never started, whatever the external runner
    would have done. -/
theorem dangerous_command_blocked (runner : String → SpawnOutcome)
    (cmd p : String) (hp : p ∈ DANGEROUS_PATTERNS)
    (hcon : strContains (pyLower cmd) p = true) :
    (bashExecute runner cmd).2 = [] ∧
    (bashExecute runner cmd).1 ∈ DANGEROUS_PATTERNS.map
      (fun q => "Error: Command contains dangerous pattern '" ++ q ++
        "' and is blocked for security") := by
  obtain ⟨hne, hws⟩ := dangerous_patterns_wf p hp
  have hinf : p.data <:+: cmd.data.map pyLowerChar := of_decide_eq_true hcon
  have hinf2 : p.data <:+: (pyStripList cmd.data).map pyLowerChar := by
    have hkeep := pat_survives_pyStripList hne hws hinf
    rwa [pyStripList_map_lower] at hkeep
  have hcon2 : strContains (pyLower (pyStrip cmd)) p = true := decide_eq_true hinf2
  have hstripne : pyStrip cmd ≠ "" := by
    intro hnil
    have hdata : pyStripList cmd.data = [] := congrArg String.data hnil
    rw [hdata] at hinf2
    simp only [List.map_nil] at hinf2
    obtain ⟨s, t, hst⟩ := hinf2
    simp only [List.append_eq_nil] at hst
    exact hne hst.1.2
  have hbeq : (pyStrip cmd == "") = false := beq_eq_false_iff_ne.mpr hstripne
  cases hfind : DANGEROUS_PATTERNS.find?
      (fun pattern => strContains (pyLower (pyStrip cmd)) pattern) with
  | none =>
    exact absurd hcon2 (List.find?_eq_none.mp hfind p hp)
  | some q =>
    have hqmem := List.mem_of_find?_eq_some hfind
    have hval : validateCommandSafety (pyStrip cmd) =
        some ("Error: Command contains dangerous pattern '" ++ q ++
          "' and is blocked for security") := by
      unfold validateCommandSafety
      simp only [hfind]
    have hfull : bashExecute runner cmd =
        ("Error: Command contains dangerous pattern '" ++ q ++
          "' and is blocked for security", []) := by
      unfold bashExecute
      simp only [hbeq, Bool.false_eq_true, if_false, hval]
    rw [hfull]
    exact ⟨rfl, List.mem_map.mpr ⟨q, hqmem, rfl⟩⟩

theorem dangerous_command_blocked_witness :
    ("rm" : String) ∈ DANGEROUS_PATTERNS ∧
    strContains (pyLower "RM -rf /tmp/x") "rm" = true ∧
    ((bashExecute (fun _ => SpawnOutcome.timeout) "RM -rf /tmp/x").2 = [] ∧
      (bashExecute (fun _ => SpawnOutcome.timeout) "RM -rf /tmp/x").1 ∈
        DANGEROUS_PATTERNS.map
          (fun q => "Error: Command contains dangerous pattern '" ++ q ++
            "' and is blocked for security")) :=
  ⟨by decide, by decide,
    dangerous_command_blocked (fun _ => SpawnOutcome.timeout) "RM -rf /tmp/x" "rm"
      (by decide) (by decide)⟩

/-! ### C8 -/

theorem pySplitList_ne_nil (old s : List Char) : pySplitList old s ≠ [] := by
  cases s with
  | nil => simp [pySplitList]
  | cons c rest =>
    rw [pySplitList]
    split
    · simp
    · split <;> simp

theorem joinWith_cons_cons {α : Type} (sep : List α) (c : α) (p : List α)
    (ps : List (List α)) :
    joinWith sep ((c :: p) :: ps) = c :: joinWith sep (p :: ps) := by
  cases ps with
  | nil => rfl
  | cons q qs => rfl

theorem pySplitList_length (old s : List Char) :
    (pySplitList old s).length = pyCountList old s + 1 := by
  induction s using pySplitList.induct old with
  | case1 => simp [pySplitList, pyCountList]
  | case2 c rest h ih =>
    rw [pySplitList, pyCountList, dif_pos h, dif_pos h]
    simp only [List.length_cons, ih]
    omega
  | case3 c rest h heq ih => exact absurd heq (pySplitList_ne_nil old rest)
  | case4 c rest h p ps heq ih =>
    rw [pySplitList, pyCountList, dif_neg h, dif_neg h, heq]
    rw [heq] at ih
    simp only [List.length_cons] at ih ⊢
    omega

theorem joinWith_pySplitList (old s : List Char) (hne : old ≠ []) :
    joinWith old (pySplitList old s) = s := by
  induction s using pySplitList.induct old with
  | case1 => simp [pySplitList, joinWith]
  | case2 c rest h ih =>
    rw [pySplitList, dif_pos h]
    obtain ⟨t, ht⟩ := h.2
    cases hsd : pySplitList old ((c :: rest).drop old.length) with
    | nil => exact absurd hsd (pySplitList_ne_nil old _)
    | cons q qs =>
      rw [hsd] at ih
      show [] ++ old ++ joinWith old (q :: qs) = c :: rest
      rw [List.nil_append, ih, ← ht, List.drop_left]
  | case3 c rest h heq ih => exact absurd heq (pySplitList_ne_nil old rest)
  | case4 c rest h p ps heq ih =>
    rw [pySplitList, dif_neg h, heq, joinWith_cons_cons, ← heq, ih]

theorem pyReplaceList_eq_joinWith (old new s : List Char) :
    pyReplaceList old new s = joinWith new (pySplitList old s) := by
  induction s using pySplitList.induct old with
  | case1 => simp [pySplitList, pyReplaceList, joinWith]
  | case2 c rest h ih =>
    rw [pyReplaceList, pySplitList, dif_pos h, dif_pos h]
    cases hsd : pySplitList old ((c :: rest).drop old.length) with
    | nil => exact absurd hsd (pySplitList_ne_nil old _)
    | cons q qs =>
      rw [hsd] at ih
      rw [ih]
      rfl
  | case3 c rest h heq ih => exact absurd heq (pySplitList_ne_nil old rest)
  | case4 c rest h p ps heq ih =>
    rw [pyReplaceList, pySplitList, dif_neg h, dif_neg h, heq, joinWith_cons_cons,
      ← heq, ih]

theorem pyCountList_pos_inf (old s : List Char)
    (h : 0 < pyCountList old s) : old <:+: s := by
  induction s using pySplitList.induct old with
  | case1 => rw [pyCountList] at h; omega
  | case2 c rest hg ih =>
    obtain ⟨t, ht⟩ := hg.2
    exact ⟨[], t, by rw [List.nil_append, ht]⟩
  | case3 c rest hg heq ih => exact absurd heq (pySplitList_ne_nil old rest)
  | case4 c rest hg p ps heq ih =>
    rw [pyCountList, dif_neg hg] at h
    obtain ⟨s2, t2, hst⟩ := ih h
    exact ⟨c :: s2, t2, by rw [← hst]; rfl⟩

theorem lookup_setFile (files : List (String × String)) (path content : String) :
    (setFile files path content).lookup path = some content := by
  simp [setFile, List.lookup]

/-- C8: editing an existing file whose content contains `old_str` at more than
    one position replaces every occurrence — the written content splits the
    original at all `n` (non-overlapping) occurrences and rejoins the same
    `n + 1` segments with `new_str`, replace-all rather than first-match — and
    the result is written back to the file. -/
theorem edit_replaces_all_occurrences (fs : EditFS)
    (path old_str new_str content : String)
    (hmk : (ancestorDirs path).any (fun d => (fs.files.lookup d).isSome) = false)
    (hfile : fs.files.lookup path = some content)
    (hold : old_str.data ≠ [])
    (hcount : 1 < pyCountList old_str.data content.data) :
    (editFileExecute fs path old_str new_str).1 =
      "Successfully edited " ++ path ++ ". Replaced " ++
        toString (pyCountList old_str.data content.data) ++
        " occurrence(s) of the specified string." ∧
    (editFileExecute fs path old_str new_str).2.files.lookup path =
      some (pyReplace content old_str new_str) ∧
    ∃ parts : List (List Char),
      parts.length = pyCountList old_str.data content.data + 1 ∧
      content.data = joinWith old_str.data parts ∧
      (pyReplace content old_str new_str).data = joinWith new_str.data parts := by
  have hcon : strContains content old_str = true :=
    decide_eq_true (pyCountList_pos_inf old_str.data content.data (by omega))
  have hcnt : pyCount content old_str = pyCountList old_str.data content.data := by
    rw [pyCount, if_neg hold]
  have hrun : editFileExecute fs path old_str new_str =
      ("Successfully edited " ++ path ++ ". Replaced " ++
          toString (pyCountList old_str.data content.data) ++
          " occurrence(s) of the specified string.",
        { fs with
          dirs := fs.dirs ++ (ancestorDirs path).filter (fun d => !fs.dirs.contains d)
          files := setFile fs.files path (pyReplace content old_str new_str) }) := by
    rw [editFileExecute, if_neg (by rw [hmk]; simp)]
    simp only [hfile, Option.isSome_some, Bool.true_or, if_true, Bool.not_true,
      Bool.false_eq_true, if_false, Option.getD_some, editFileReplace, hcon, if_true,
      hcnt]
  refine ⟨by rw [hrun], by rw [hrun]; exact lookup_setFile _ _ _, ?_⟩
  refine ⟨pySplitList old_str.data content.data, pySplitList_length _ _, 
    (joinWith_pySplitList old_str.data content.data hold).symm, ?_⟩
  rw [pyReplace, if_neg hold]
  exact pyReplaceList_eq_joinWith old_str.data new_str.data content.data

theorem edit_replaces_all_occurrences_witness :
    ((ancestorDirs "notes.txt").any
        (fun d => (([("notes.txt", "x1x2x")] : List (String × String)).lookup d).isSome) =
          false) ∧
    ([("notes.txt", "x1x2x")] : List (String × String)).lookup "notes.txt" =
      some "x1x2x" ∧
    ("x" : String).data ≠ [] ∧
    1 < pyCountList ("x" : String).data ("x1x2x" : String).data ∧
    ((editFileExecute ⟨[("notes.txt", "x1x2x")], []⟩ "notes.txt" "x" "yy").2.files.lookup
        "notes.txt" = some (pyReplace "x1x2x" "x" "yy")) :=
  ⟨by decide, by decide, by decide, by simp +decide [pyCountList],
    (edit_replaces_all_occurrences ⟨[("notes.txt", "x1x2x")], []⟩ "notes.txt" "x" "yy"
      "x1x2x" (by decide) (by decide) (by decide)
      (by simp +decide [pyCountList])).2.1⟩

/-! ### C9 -/

/-- C9: an `edit_file` invocation on a path that does not yet exist, with a
    non-empty `old_str`, returns the not-found error outcome and leaves the
    file map untouched (the target is never written) — yet every parent
    directory required for the path is present in the resulting state: `mkdir`
    runs before the content is examined, so the directory creation persists on
    this error path. -/
theorem edit_not_found_error_keeps_dirs (fs : EditFS) (path old_str new_str : String)
    (hmk : (ancestorDirs path).any (fun d => (fs.files.lookup d).isSome) = false)
    (hfile : fs.files.lookup path = none)
    (hd1 : path ∉ fs.dirs)
    (hd2 : path ∉ ancestorDirs path)
    (hold : old_str.data ≠ []) :
    (editFileExecute fs path old_str new_str).1 =
      "String not found in file: '" ++ old_str ++ "'" ∧
    (editFileExecute fs path old_str new_str).2.files = fs.files ∧
    ∀ d ∈ ancestorDirs path, d ∈ (editFileExecute fs path old_str new_str).2.dirs := by
  have hnotdir :
      (fs.dirs ++ (ancestorDirs path).filter (fun d => !fs.dirs.contains d)).contains
        path = false := by
    simp [hd1, hd2]
  have hncon : strContains "" old_str = false := by
    apply decide_eq_false
    intro hin
    obtain ⟨s2, t2, hst⟩ := hin
    simp only [List.append_eq_nil] at hst
    exact hold hst.1.2
  have hbeq : (old_str == "") = false := by
    apply beq_eq_false_iff_ne.mpr
    intro he
    exact hold (congrArg String.data he)
  have hrun : editFileExecute fs path old_str new_str =
      ("String not found in file: '" ++ old_str ++ "'",
        { fs with
          dirs := fs.dirs ++
            (ancestorDirs path).filter (fun d => !fs.dirs.contains d) }) := by
    rw [editFileExecute, if_neg (by rw [hmk]; simp)]
    simp only [hfile, Option.isSome_none, hnotdir, Bool.or_self, Bool.false_eq_true,
      if_false, editFileReplace, hncon, Bool.not_false, hbeq, Bool.and_false]
  refine ⟨by rw [hrun], by rw [hrun], ?_⟩
  intro d hd
  rw [hrun]
  by_cases hdin : d ∈ fs.dirs
  · exact List.mem_append.mpr (Or.inl hdin)
  · refine List.mem_append.mpr (Or.inr (List.mem_filter.mpr ⟨hd, ?_⟩))
    simp [hdin]

theorem edit_not_found_error_keeps_dirs_witness :
    ((ancestorDirs "docs/readme.md").any
        (fun d => (([] : List (String × String)).lookup d).isSome) = false) ∧
    (((editFileExecute ⟨[], []⟩ "docs/readme.md" "x" "y").1 =
        "String not found in file: '" ++ "x" ++ "'" ∧
      (editFileExecute ⟨[], []⟩ "docs/readme.md" "x" "y").2.files = [] ∧
      ∀ d ∈ ancestorDirs "docs/readme.md",
        d ∈ (editFileExecute ⟨[], []⟩ "docs/readme.md" "x" "y").2.dirs)) :=
  ⟨by decide,
    edit_not_found_error_keeps_dirs ⟨[], []⟩ "docs/readme.md" "x" "y"
      (by decide) (by decide) (by decide) (by decide) (by decide)⟩

/-! ### C10 -/

/-- C10: an `edit_file` invocation with empty `old_str` on a path that does
    not exist succeeds through the replacement branch — the empty string
    occurs once in the empty content, so the tool reports one replaced
    occurrence and writes the file with content exactly `new_str` — and the
    dedicated new-file creation branch is never reached: the result is the
    "Successfully edited" message, not the "Created new file" one. -/
theorem edit_empty_old_creates_via_replace (fs : EditFS) (path new_str : String)
    (hmk : (ancestorDirs path).any (fun d => (fs.files.lookup d).isSome) = false)
    (hfile : fs.files.lookup path = none)
    (hd1 : path ∉ fs.dirs)
    (hd2 : path ∉ ancestorDirs path) :
    (editFileExecute fs path "" new_str).1 =
      "Successfully edited " ++ path ++ ". Replaced " ++ toString (1 : Nat) ++
        " occurrence(s) of the specified string." ∧
    (editFileExecute fs path "" new_str).2.files.lookup path = some new_str ∧
    (editFileExecute fs path "" new_str).1 ≠ "Created new file: " ++ path := by
  have hnotdir :
      (fs.dirs ++ (ancestorDirs path).filter (fun d => !fs.dirs.contains d)).contains
        path = false := by
    simp [hd1, hd2]
  have hcon : strContains "" "" = true := by decide
  have hcnt : pyCount "" "" = 1 := rfl
  have hrep : pyReplace "" "" new_str = new_str := by
    rw [pyReplace, if_pos rfl]
    simp
  have hrun : editFileExecute fs path "" new_str =
      ("Successfully edited " ++ path ++ ". Replaced " ++ toString (1 : Nat) ++
          " occurrence(s) of the specified string.",
        { fs with
          dirs := fs.dirs ++
            (ancestorDirs path).filter (fun d => !fs.dirs.contains d)
          files := setFile fs.files path new_str }) := by
    rw [editFileExecute, if_neg (by rw [hmk]; simp)]
    simp only [hfile, Option.isSome_none, hnotdir, Bool.or_self, Bool.false_eq_true,
      if_false, editFileReplace, hcon, if_true, Option.getD_none, hcnt, hrep]
  refine ⟨by rw [hrun], by rw [hrun]; exact lookup_setFile _ _ _, ?_⟩
  rw [hrun]
  intro h
  have hlen := congrArg String.length h
  simp only [String.length_append] at hlen
  have e1 : ("Successfully edited " : String).length = 20 := rfl
  have e2 : (". Replaced " : String).length = 11 := rfl
  have e3 : (toString (1 : Nat) : String).length = 1 := rfl
  have e4 : (" occurrence(s) of the specified string." : String).length = 39 := rfl
  have e5 : ("Created new file: " : String).length = 18 := rfl
  rw [e1, e2, e3, e4, e5] at hlen
  omega

theorem edit_empty_old_creates_via_replace_witness :
    (([] : List (String × String)).lookup "a.txt" = none) ∧
    ((editFileExecute ⟨[], []⟩ "a.txt" "" "hello").1 =
        "Successfully edited " ++ "a.txt" ++ ". Replaced " ++ toString (1 : Nat) ++
          " occurrence(s) of the specified string." ∧
      (editFileExecute ⟨[], []⟩ "a.txt" "" "hello").2.files.lookup "a.txt" =
        some "hello" ∧
      (editFileExecute ⟨[], []⟩ "a.txt" "" "hello").1 ≠
        "Created new file: " ++ "a.txt") :=
  ⟨by decide,
    edit_empty_old_creates_via_replace ⟨[], []⟩ "a.txt" "hello"
      (by decide) (by decide) (by decide) (by decide)⟩
